import Mathlib

/-!
Verification of the SQrLite read-only SQLite file decoder.

Each Rust source function relevant to the checked properties is embedded as
an executable Lean definition operating on `Nat` byte lists.  Machine
integers are modelled as `Nat` with explicit wrap/check behaviour where the
Rust code could overflow, underflow or panic; fallible code returns an
explicit result type whose `panic` constructor marks the inputs on which
the Rust code would panic (out-of-bounds slice, `usize`/`u64` underflow in
debug builds, `todo!()`).
-/

namespace SQrLite

/-! ## Varint codec, embedded from src/varint.rs -/

/-- Result of `Varint::decode_be`: a decoded `(value, size)` pair, the
`MaxBytesExceededError`, or a panic (the Rust code slices
`input[..=position]`, which is out of bounds when the input ends while
every byte seen so far had its continuation bit set). -/
inductive DecResult where
  | ok (value : Nat) (size : Nat)
  | tooLong
  | panic
deriving DecidableEq, Repr

/-- The loop of `Varint::decode_be` over the remaining input, carrying the
accumulator `result` and the continuation-byte count `position`.  The Rust
body is `result += byte ^ 0x80; result <<= 7` for a continuation byte and
`result += byte` for a final byte; no u64 overflow is reachable (at most
8 continuation bytes of 7 bits each are accumulated), so plain `Nat`
arithmetic agrees with the `u64` arithmetic of the source. -/
def decode_loop : List Nat → Nat → Nat → DecResult
  | [], _, _ => .panic
  | b :: rest, result, position =>
    if 0x7f < b then
      if 7 < position then .tooLong
      else decode_loop rest ((result + (b ^^^ 0x80)) * 128) (position + 1)
    else .ok (result + b) (position + 1)

/-- `Varint::decode_be` from src/varint.rs (also exposed to cell.rs and
record.rs as the free function `decode_be` returning `(value, size)`). -/
def decode_be (input : List Nat) : DecResult :=
  decode_loop input 0 0

/-- One iteration of the encoder loop of `Varint::encode_be`: for shift
`s`, push `(value >> s) & 0x7f`, with the continuation bit `0x80` on every
byte except the one at shift 0, skipping leading all-zero bytes. -/
def encode_step (v : Nat) (result : List Nat) (shift : Nat) : List Nat :=
  let byte_value := (v >>> shift) &&& 0x7f
  if shift ≠ 0 then
    if byte_value = 0 ∧ result = [] then result
    else result ++ [byte_value ||| 0x80]
  else result ++ [byte_value]

/-- `Varint::encode_be` from src/varint.rs: the Rust loop runs over
`(0..63).step_by(7).rev()`, i.e. shifts 56, 49, …, 7, 0. -/
def encode_be (v : Nat) : List Nat :=
  [56, 49, 42, 35, 28, 21, 14, 7, 0].foldl (encode_step v) []

/-- C1: the encoder's loop covers shifts 56 down to 0 with a 7-bit mask at
every position, so bit 63 of a u64 is never emitted: `encode_be (2^63)`
collapses to the single byte `0x00`, which decodes to `(0, 1)` instead of
`(2^63, 1)`.  The claimed round-trip `decode(encode(v)) = (v, len)` for
every u64 `v` therefore fails at `v = 2^63`. -/
theorem c1_encode_drops_bit63 :
    encode_be (2 ^ 63) = [0] ∧ decode_be [0] = .ok 0 1 ∧ (2 ^ 63 : Nat) ≠ 0 := by
  refine ⟨by decide, by decide, by decide⟩

/-- C2: on nine `0x80` bytes the decoder reports the max-bytes error at the
9th byte instead of letting it contribute all 8 bits (which would yield
`(0x80, 9)`); and on eight continuation bytes followed by `0x01` the final
byte is added after a 7-bit shift, yielding `2^56 + 1` where an 8-bit
contribution of the 9th byte would yield `2^57 + 1`. -/
theorem c2_ninth_byte_divergence :
    decode_be (List.replicate 9 0x80) = .tooLong ∧
    decode_be [0x81, 0x80, 0x80, 0x80, 0x80, 0x80, 0x80, 0x80, 0x01] =
      .ok (2 ^ 56 + 1) 9 ∧
    (2 ^ 56 + 1 : Nat) ≠ 2 ^ 57 + 1 := by
  refine ⟨by decide, by decide, by decide⟩

/-! ## Cells and spillage, embedded from src/cell.rs and src/btree_page.rs -/

/-- `PageType` from src/btree_page.rs. -/
inductive PageType where
  | InteriorIndex
  | InteriorTable
  | LeafIndex
  | LeafTable
deriving DecidableEq, Repr

/-- `Payload` from src/cell.rs: declared size (including overflow), inline
payload bytes, and the raw 4-byte overflow-page pointer if present. -/
structure Payload where
  size : Nat
  payload : List Nat
  overflow : Option (List Nat)
deriving DecidableEq, Repr

/-- Checked `u64`/`usize` subtraction: `none` models the debug-build panic
of Rust `a - b` when `b > a`. -/
def checkedSub (a b : Nat) : Option Nat :=
  if b ≤ a then some (a - b) else none

/-- `Payload::calculate_spillage` from src/cell.rs, with every `u64`
subtraction checked and `% (u - 4)` checked against a zero divisor; `none`
models a panic of the Rust code.  The arguments are the declared payload
size `p = self.size`, `db.page_size`, `db.reserved_space`, and
`page.page_type`; the source computes `u`, `m`, `k`, `x` in this order and
then matches on `p`. -/
def calculate_spillage (p page_size reserved_space : Nat)
    (page_type : PageType) : Option Nat :=
  match checkedSub page_size reserved_space with
  | none => none
  | some u =>
    match checkedSub u 12 with
    | none => none
    | some u12 =>
      match checkedSub (u12 * 32 / 255) 23 with
      | none => none
      | some m =>
        match checkedSub p m with
        | none => none
        | some pm =>
          match checkedSub u 4 with
          | none => none
          | some u4 =>
            if u4 = 0 then none
            else
              let k := m + pm % u4
              match
                (match page_type with
                 | .LeafTable => checkedSub u 35
                 | .LeafIndex | .InteriorIndex =>
                     match checkedSub u 12 with
                     | none => none
                     | some t => checkedSub (t * 64 / 255) 23
                 | .InteriorTable => some 0) with
              | none => none
              | some x =>
                if p > x ∧ k ≤ x then checkedSub p k
                else if p > x ∧ k > x then checkedSub p m
                else some 0

/-- Result of `parse_leaf_table_cell` from src/cell.rs: the `(rowid,
payload)` pair, a propagated varint error, or a panic (out-of-bounds
slice or `usize` underflow in the Rust code). -/
inductive LeafTableResult where
  | ok (rowid : Nat) (p : Payload)
  | err
  | panic
deriving DecidableEq, Repr

/-- `parse_leaf_table_cell` from src/cell.rs.  `cell_size` is the `size`
field of the `Cell` argument and `buf` is `cell_buf` (in
`CellContent::parse` the buffer has exactly `cell.size` bytes).  The
overflow check compares the declared payload size against `cell.size`, and
the inline payload is sliced starting at the length of the *second* varint
(the Rust code reassigns `varint_len` when decoding the rowid). -/
def parse_leaf_table_cell (cell_size : Nat) (buf : List Nat) :
    LeafTableResult :=
  match decode_be buf with
  | .panic => .panic
  | .tooLong => .err
  | .ok payload_size len1 =>
    -- overflow trailer: `cell_buf[cell_buf.len() - 4..]` panics when the
    -- buffer holds fewer than 4 bytes
    if payload_size > cell_size ∧ buf.length < 4 then .panic
    else
      let has_overflow := payload_size > cell_size
      match decode_be (buf.drop len1) with
      | .panic => .panic
      | .tooLong => .err
      | .ok rowid len2 =>
        if has_overflow then
          if buf.length - 4 < len2 then .panic
          else
            .ok rowid
              { size := payload_size,
                payload := (buf.drop len2).take (buf.length - 4 - len2),
                overflow := some (buf.drop (buf.length - 4)) }
        else
          if buf.length < len2 then .panic
          else
            .ok rowid
              { size := payload_size,
                payload := buf.drop len2,
                overflow := none }

/-- C4: at the 5-byte leaf-table cell `[0x03, 0x7f, 0xAA, 0xBB, 0xCC]`
(declared payload size 3, rowid varint `0x7f`), no overflow is recorded
and the claim's inline payload would be the remainder after both leading
varints, `[0xAA, 0xBB, 0xCC]`; the code instead slices from the second
varint's length alone and returns `[0x7f, 0xAA, 0xBB, 0xCC]`, which
includes the rowid byte. -/
theorem c4_leaf_table_payload_slice_bug :
    parse_leaf_table_cell 5 [0x03, 0x7f, 0xAA, 0xBB, 0xCC] =
      .ok 0x7f { size := 3, payload := [0x7f, 0xAA, 0xBB, 0xCC],
                 overflow := none } ∧
    ([0x7f, 0xAA, 0xBB, 0xCC] : List Nat) ≠ [0xAA, 0xBB, 0xCC] := by
  refine ⟨by decide, by decide⟩

/-- C9: on a cell whose 1-byte buffer `[0x80]` is too short for its
leading varint, `parse_leaf_table_cell` panics (the varint decoder slices
`input[..=position]` out of bounds) instead of returning a truncation
error. -/
theorem c9_truncated_cell_panics :
    parse_leaf_table_cell 1 [0x80] = .panic := by
  decide

/-- C10 counterexample: with pageSize 100, no reserved space and a table
leaf page, the usable size `U = 100` satisfies the claim's side conditions
(`U − 12`, `U − 35`, `U − 4` all non-negative) and the payload size 1000
exceeds any reading of `M`, yet `calculate_spillage` panics: the `u64`
subtraction `((U − 12) * 32 / 255) − 23 = 11 − 23` underflows. -/
theorem c10_small_usable_size_panics :
    calculate_spillage 1000 100 0 .LeafTable = none ∧
    12 ≤ 100 ∧ 35 ≤ 100 ∧ 4 ≤ 100 := by
  refine ⟨by decide, by decide, by decide, by decide⟩

/-- The spillage threshold `X` computed by `calculate_spillage` for each
page type (`0` for the interior-table wildcard arm of the source match). -/
def spill_threshold (u : Nat) : PageType → Nat
  | .LeafTable => u - 35
  | .LeafIndex | .InteriorIndex => (u - 12) * 64 / 255 - 23
  | .InteriorTable => 0

/-- If `M = ((U − 12) * 32 / 255) − 23` is well defined (the subtraction
by 23 does not underflow) then the usable size is at least 196. -/
lemma usable_of_m_defined {u : Nat} (h : 23 ≤ (u - 12) * 32 / 255) :
    196 ≤ u := by
  have h2 : 23 * 255 ≤ (u - 12) * 32 :=
    (Nat.le_div_iff_mul_le (by norm_num)).mp h
  omega

/-- The index-page threshold subtraction is well defined whenever the `M`
subtraction is. -/
lemma index_threshold_defined {u : Nat} (h : 23 ≤ (u - 12) * 32 / 255) :
    23 ≤ (u - 12) * 64 / 255 :=
  le_trans h (Nat.div_le_div_right (Nat.mul_le_mul (le_refl _) (by norm_num)))

/-- The final policy match of `calculate_spillage`, rewritten from the
guarded option form to a single `some` of nested conditionals; `m ≤ p`
guarantees both remaining subtractions are well defined. -/
lemma policy_branches (p m k x : Nat) :
    (if p > x ∧ k ≤ x then if k ≤ p then some (p - k) else none
     else if p > x ∧ k > x then some (p - m)
     else some 0) =
    some (if p ≤ x then 0 else if k ≤ x then p - k else p - m) := by
  by_cases hpx : p ≤ x
  · have h1 : ¬(p > x ∧ k ≤ x) := by omega
    have h2 : ¬(p > x ∧ k > x) := by omega
    simp [h1, h2, hpx]
  · by_cases hkx : k ≤ x
    · have h1 : p > x ∧ k ≤ x := by omega
      have hkp : k ≤ p := by omega
      simp [h1, hpx, hkx, hkp]
    · have h1 : ¬(p > x ∧ k ≤ x) := by omega
      have h2 : p > x ∧ k > x := by omega
      simp [h1, h2, hpx, hkx]

/-- Reduction of `calculate_spillage` on the non-panicking domain: when the
`M` subtraction does not underflow and `P ≥ M`, the function returns the
SQLite spillage policy value for the threshold `spill_threshold`. -/
lemma spillage_reduce (p ps rs : Nat) (pt : PageType)
    (hm : 23 ≤ (ps - rs - 12) * 32 / 255)
    (hp : (ps - rs - 12) * 32 / 255 - 23 ≤ p) :
    calculate_spillage p ps rs pt =
      some
        (if p ≤ spill_threshold (ps - rs) pt then 0
         else if (ps - rs - 12) * 32 / 255 - 23 +
               (p - ((ps - rs - 12) * 32 / 255 - 23)) % (ps - rs - 4) ≤
               spill_threshold (ps - rs) pt then
           p - ((ps - rs - 12) * 32 / 255 - 23 +
               (p - ((ps - rs - 12) * 32 / 255 - 23)) % (ps - rs - 4))
         else p - ((ps - rs - 12) * 32 / 255 - 23)) := by
  have hu : 196 ≤ ps - rs := usable_of_m_defined hm
  have hrs : rs ≤ ps := by omega
  have h12 : 12 ≤ ps - rs := by omega
  have h4 : 4 ≤ ps - rs := by omega
  have h35 : 35 ≤ ps - rs := by omega
  have hne : ¬(ps - rs - 4 = 0) := by omega
  have h64 : 23 ≤ (ps - rs - 12) * 64 / 255 := index_threshold_defined hm
  rcases pt with _ | _ | _ | _ <;>
    simp only [calculate_spillage, checkedSub, spill_threshold,
      if_pos hrs, if_pos h12, if_pos hm, if_pos hp, if_pos h4, if_neg hne,
      if_pos h35, if_pos h64] <;>
    exact policy_branches p _ _ _

/-- C3: under the implicit well-definedness preconditions of the formulas
(the subtraction in `M` does not underflow, and `P ≥ M`), the function
`calculate_spillage` implements exactly the claimed policy: with
`U = pageSize − reservedSpacePerPage`, `M = ((U−12)*32/255)−23`,
`K = M + ((P−M) mod (U−4))` and `X = U−35` for a table leaf or
`((U−12)*64/255)−23` for index pages, the result is `0` when `P ≤ X`,
`P − K` when `P > X` and `K ≤ X`, and `P − M` when `P > X` and `K > X`. -/
theorem c3_spillage_policy (p ps rs : Nat) (pt : PageType)
    (hpt : pt ≠ PageType.InteriorTable)
    (hm : 23 ≤ (ps - rs - 12) * 32 / 255)
    (hp : (ps - rs - 12) * 32 / 255 - 23 ≤ p) :
    calculate_spillage p ps rs pt =
      some
        (let u := ps - rs
         let m := (u - 12) * 32 / 255 - 23
         let k := m + (p - m) % (u - 4)
         let x := if pt = PageType.LeafTable then u - 35
                  else (u - 12) * 64 / 255 - 23
         if p ≤ x then 0 else if k ≤ x then p - k else p - m) := by
  rw [spillage_reduce p ps rs pt hm hp]
  rcases pt with _ | _ | _ | _ <;> simp [spill_threshold] at hpt ⊢

/-- Witness for C3 at `P = 5000`, pageSize 4096, no reserved space, table
leaf: `U = 4096`, `M = 489`, `K = 489 + 4511 % 4092 = 908 ≤ X = 4061 < P`,
so the result is `P − K = 4092`. -/
theorem c3_spillage_policy_witness :
    calculate_spillage 5000 4096 0 PageType.LeafTable = some 4092 :=
  (c3_spillage_policy 5000 4096 0 PageType.LeafTable (by decide) (by decide)
      (by decide)).trans (by decide)

/-- C10 amended: `calculate_spillage` is panic-free exactly when `P ≥ M`
and the `M` subtraction itself does not underflow, i.e.
`(U−12)*32/255 ≥ 23` (forcing `U ≥ 196`); the condition of the claim —
`U−12`, `U−35`, `U−4` non-negative — is not sufficient. -/
theorem c10_amended_panic_free_iff (p ps rs : Nat) (pt : PageType) :
    (calculate_spillage p ps rs pt).isSome ↔
      (23 ≤ (ps - rs - 12) * 32 / 255 ∧
       (ps - rs - 12) * 32 / 255 - 23 ≤ p) := by
  constructor
  · intro h
    by_cases hm : 23 ≤ (ps - rs - 12) * 32 / 255
    · by_cases hp : (ps - rs - 12) * 32 / 255 - 23 ≤ p
      · exact ⟨hm, hp⟩
      · exfalso
        have hu : 196 ≤ ps - rs := usable_of_m_defined hm
        have hrs : rs ≤ ps := by omega
        have h12 : 12 ≤ ps - rs := by omega
        have hnone : calculate_spillage p ps rs pt = none := by
          simp only [calculate_spillage, checkedSub,
            if_pos hrs, if_pos h12, if_pos hm, if_neg hp]
        rw [hnone] at h
        simp at h
    · exfalso
      have hnone : calculate_spillage p ps rs pt = none := by
        by_cases h1 : rs ≤ ps
        · by_cases h2 : 12 ≤ ps - rs
          · simp only [calculate_spillage, checkedSub,
              if_pos h1, if_pos h2, if_neg hm]
          · simp only [calculate_spillage, checkedSub,
              if_pos h1, if_neg h2]
        · simp only [calculate_spillage, checkedSub, if_neg h1]
      rw [hnone] at h
      simp at h
  · rintro ⟨hm, hp⟩
    rw [spillage_reduce p ps rs pt hm hp]
    simp

/-- Witness for C10 (amended, forward direction instantiated):
at `P = 5000`, pageSize 4096, reserved 0, the preconditions hold and the
function indeed does not panic. -/
theorem c10_amended_panic_free_iff_witness :
    (calculate_spillage 5000 4096 0 PageType.LeafTable).isSome = true :=
  (c10_amended_panic_free_iff 5000 4096 0 PageType.LeafTable).mpr
    ⟨by decide, by decide⟩

/-! ## Record decoding, embedded from src/record.rs -/

/-- `DataType` from src/record.rs. -/
inductive DataType where
  | Null
  | BooleanFalse
  | BooleanTrue
  | Integer
  | Real
  | Text
  | Blob
deriving DecidableEq, Repr

/-- `Field` from src/record.rs. -/
structure Field where
  size : Nat
  offset : Nat
  data_type : DataType
deriving DecidableEq, Repr

/-- Result of `Record::load_fields`: the field list, the propagated
`MaxBytesExceededError`, or a panic (out-of-bounds slice, or the `todo!()`
reached on serial types 10 and 11). -/
inductive RecResult where
  | ok (fields : List Field)
  | maxBytesErr
  | panic
deriving DecidableEq, Repr

/-- The serial-type match of `Record::load_fields`: `(size, data_type)`
per the fixed table, `none` for the `todo!()` arms 10 and 11 (a panic in
the Rust code). -/
def resolve_serial_type (serial_type : Nat) : Option (Nat × DataType) :=
  if serial_type = 0 then some (0, .Null)
  else if 1 ≤ serial_type ∧ serial_type ≤ 4 then some (serial_type, .Integer)
  else if serial_type = 5 then some (6, .Integer)
  else if serial_type = 6 then some (8, .Integer)
  else if serial_type = 7 then some (8, .Real)
  else if serial_type = 8 then some (0, .BooleanFalse)
  else if serial_type = 9 then some (0, .BooleanTrue)
  else if serial_type = 10 ∨ serial_type = 11 then none
  else if serial_type % 2 = 0 then some ((serial_type - 12) / 2, .Blob)
  else some ((serial_type - 13) / 2, .Text)

/-- A successful `decode_loop` consumed at least one byte beyond the
starting position. -/
lemma decode_loop_ok_lt :
    ∀ (l : List Nat) (acc pos v s : Nat),
      decode_loop l acc pos = .ok v s → pos < s := by
  intro l
  induction l with
  | nil => intro acc pos v s h; simp [decode_loop] at h
  | cons b rest ih =>
    intro acc pos v s h
    simp only [decode_loop] at h
    by_cases h1 : 0x7f < b
    · rw [if_pos h1] at h
      by_cases h2 : 7 < pos
      · rw [if_pos h2] at h; simp at h
      · rw [if_neg h2] at h
        have := ih _ _ _ _ h
        omega
    · rw [if_neg h1] at h
      cases h
      omega

/-- A successful `decode_be` consumed at least one byte. -/
lemma decode_be_ok_pos {l : List Nat} {v s : Nat}
    (h : decode_be l = .ok v s) : 0 < s :=
  decode_loop_ok_lt l 0 0 v s h

/-- The `while position < header_size` loop of `Record::load_fields`.
Each iteration slices `payload[position..min(position+9, header_size)]`
(a panic when the slice end exceeds the payload length), decodes one
serial-type varint, resolves it, and appends a field whose offset is the
running `field_start`. -/
def load_fields_loop (payload : List Nat) (header_size : Nat)
    (position field_start : Nat) (fields : List Field) : RecResult :=
  if hlt : position < header_size then
    if payload.length < min (position + 9) header_size then .panic
    else
      match hd : decode_be ((payload.drop position).take
          (min (position + 9) header_size - position)) with
      | .panic => .panic
      | .tooLong => .maxBytesErr
      | .ok serial_type idx =>
        match resolve_serial_type serial_type with
        | none => .panic
        | some (sz, dt) =>
          load_fields_loop payload header_size (position + idx)
            (field_start + sz)
            (fields ++ [{ size := sz, offset := field_start,
                          data_type := dt }])
  else .ok fields
termination_by header_size - position
decreasing_by
  have := decode_be_ok_pos hd
  omega

/-- `Record::load_fields` from src/record.rs.  The first varint is decoded
from `payload[..9]`, which panics when the payload is shorter than nine
bytes; the loop then starts at `position = idx` with
`field_start = header_size`. -/
def load_fields (payload : List Nat) : RecResult :=
  if payload.length < 9 then .panic
  else
    match decode_be (payload.take 9) with
    | .panic => .panic
    | .tooLong => .maxBytesErr
    | .ok header_size idx =>
      load_fields_loop payload header_size idx header_size []

/-- C5: on the 9-byte record payload `[0x02, 0x0A, 0, …]` (header size 2,
single serial type 10) `load_fields` reaches the `todo!()` arm for serial
types 10/11 and panics instead of returning a checked error. -/
theorem c5_serial_type_10_panics :
    load_fields [2, 10, 0, 0, 0, 0, 0, 0, 0] = .panic := by
  have hdec : decode_be ([2, 10, 0, 0, 0, 0, 0, 0, 0].take 9) = .ok 2 1 := by
    decide
  have hloop : load_fields_loop [2, 10, 0, 0, 0, 0, 0, 0, 0] 2 1 2 [] =
      .panic := by
    rw [load_fields_loop]
    decide
  simp only [load_fields, hdec, hloop]
  decide

/-- C8: the 3-byte record payload `[0x04, 0x01, 0xAA]` of the claim makes
`load_fields` panic immediately — the Rust code slices `payload[..9]`
unconditionally and three bytes are out of bounds — instead of producing
the claimed single Integer field of offset 4 and size 1. -/
theorem c8_short_record_payload_panics :
    load_fields [4, 1, 0xAA] = .panic := by
  simp only [load_fields]
  decide

/-! ## Database file header, embedded from src/db.rs -/

/-- `HEADER_STRING_ARR` from src/db.rs: the magic literal
`"SQLite format 3\x00"`. -/
def HEADER_STRING_ARR : List Nat :=
  [0x53, 0x51, 0x4c, 0x69, 0x74, 0x65, 0x20, 0x66, 0x6f, 0x72, 0x6d, 0x61,
   0x74, 0x20, 0x33, 0x00]

/-- Failure modes of `Database::new`: an I/O failure (short read of the
100-byte header) or the `InvalidDBFileError` from `validate_db_file`. -/
inductive DbError where
  | ioError
  | invalidFormat
deriving DecidableEq, Repr

/-- The header fields `Database::new` extracts (the `file` handle and raw
`header` buffer are omitted; they carry no decoded content). -/
structure DbHeaderFields where
  page_size : Nat
  page_count : Nat
  reserved_space : Nat
deriving DecidableEq, Repr

/-- `u16::from_be_bytes`. -/
def u16_be (b0 b1 : Nat) : Nat := b0 * 256 + b1

/-- `u32::from_be_bytes`. -/
def u32_be (b0 b1 b2 b3 : Nat) : Nat :=
  ((b0 * 256 + b1) * 256 + b2) * 256 + b3

/-- `validate_db_file` from src/db.rs. -/
def validate_db_file (header_str_arr : List Nat) : Except DbError Unit :=
  if header_str_arr = HEADER_STRING_ARR then .ok () else .error .invalidFormat

/-- `Database::new` from src/db.rs, applied to the file content: reads the
first 100 bytes (error on a shorter file), validates the magic, and
extracts page size (big-endian u16 at offset 16, stored raw), page count
(big-endian u32 at offset 28) and reserved space (byte at offset 20). -/
def database_new (file : List Nat) : Except DbError DbHeaderFields :=
  if file.length < 100 then .error .ioError
  else
    match validate_db_file (file.take 16) with
    | .error e => .error e
    | .ok _ =>
      .ok { page_size := u16_be (file.getD 16 0) (file.getD 17 0),
            page_count := u32_be (file.getD 28 0) (file.getD 29 0)
              (file.getD 30 0) (file.getD 31 0),
            reserved_space := file.getD 20 0 }

/-- C6 counterexample: a 100-byte file with a valid magic and page-size
bytes `0x00 0x01` parses successfully, and the reported page size is the
raw value 1 — it is not converted to 65536 (the `page_size` field is a
`u16` and no conversion exists anywhere in the code). -/
theorem c6_page_size_one_not_65536 :
    database_new (HEADER_STRING_ARR ++ [0, 1] ++ List.replicate 82 0) =
      .ok { page_size := 1, page_count := 0, reserved_space := 0 } ∧
    (1 : Nat) ≠ 65536 := by
  refine ⟨by rfl, by decide⟩

/-- C6 amended: for a file of at least 100 bytes, `Database::new` fails
(with the invalid-format error) exactly when the first 16 bytes differ
from the magic literal; on success it reports the raw big-endian u16 at
offset 16 as pageSize (a stored value of 1 is reported as 1, not 65536),
the byte at offset 20 as reservedSpacePerPage, and the big-endian u32 at
offset 28 as pageCount. -/
theorem c6_amended_header_parse (file : List Nat) (h : 100 ≤ file.length) :
    (database_new file = .error .invalidFormat ↔
      file.take 16 ≠ HEADER_STRING_ARR) ∧
    (file.take 16 = HEADER_STRING_ARR →
      database_new file =
        .ok { page_size := u16_be (file.getD 16 0) (file.getD 17 0),
              page_count := u32_be (file.getD 28 0) (file.getD 29 0)
                (file.getD 30 0) (file.getD 31 0),
              reserved_space := file.getD 20 0 }) := by
  have h100 : ¬file.length < 100 := by omega
  by_cases hm : file.take 16 = HEADER_STRING_ARR
  · constructor
    · simp [database_new, validate_db_file, h100, hm]
    · intro _
      simp [database_new, validate_db_file, h100, hm]
  · constructor
    · simp [database_new, validate_db_file, h100, hm]
    · intro hm'
      exact absurd hm' hm

/-- Witness for C6 (amended) on a concrete valid 100-byte header with
page-size bytes `0x10 0x00` and page-count bytes `0x00 0x00 0x00 0x01`. -/
theorem c6_amended_header_parse_witness :
    database_new (HEADER_STRING_ARR ++ [16, 0] ++ List.replicate 10 0 ++
        [0, 0, 0, 1] ++ List.replicate 68 0) =
      .ok { page_size := 4096, page_count := 1, reserved_space := 0 } :=
  ((c6_amended_header_parse
      (HEADER_STRING_ARR ++ [16, 0] ++ List.replicate 10 0 ++
        [0, 0, 0, 1] ++ List.replicate 68 0) (by decide)).2
    (by decide)).trans (by rfl)

/-! ## Page cell extents, embedded from src/btree_page.rs -/

/-- `Cell` from src/cell.rs: a cell's byte offset within its page and its
derived byte size. -/
structure Cell where
  offset : Nat
  size : Nat
deriving DecidableEq, Repr

/-- `BtreePage::get_page_cells` from src/btree_page.rs: sorts a copy of
the cell-pointer array ascending (`sort_unstable`; on `u16` values any
correct sort yields the same list), then assigns each pointer except the
largest the size `nextPointer − thisPointer` and the largest the size
`pageSize − thisPointer`. -/
def get_page_cells (page_size : Nat) (cell_pointers : List Nat) : List Cell :=
  let pointers := cell_pointers.insertionSort (· ≤ ·)
  (List.range pointers.length).map fun i =>
    { offset := pointers.getD i 0,
      size := if i = pointers.length - 1 then page_size - pointers.getD i 0
              else pointers.getD (i + 1) 0 - pointers.getD i 0 }

/-- Indexing a map over `List.range`. -/
lemma range_map_getD {α : Type} (n i : Nat) (d : α) (f : Nat → α)
    (h : i < n) : ((List.range n).map f).getD i d = f i := by
  rw [List.getD_eq_getElem?_getD, List.getElem?_map]
  simp [List.getElem?_range, h]

/-- Reading every position of a list through `getD` reconstructs it. -/
lemma range_map_getD_self (l : List Nat) :
    (List.range l.length).map (fun i => l.getD i 0) = l := by
  apply List.ext_getElem
  · simp
  · intro i h1 h2
    simp [List.getD_eq_getElem?_getD, List.getElem?_eq_getElem h2]

/-- C7: on a page whose stored cell pointers all lie within the page, the
returned cells are in ascending sorted-offset order and as numerous as the
pointers; each cell except the last has size `nextPointer − thisPointer`,
the last has size `pageSize − offset` and its end offset equals
`pageSize`; and any permutation of the stored pointer array (any insertion
order) produces the same cells. -/
theorem c7_get_page_cells_spec (page_size : Nat) (cell_pointers : List Nat)
    (hbound : ∀ ptr ∈ cell_pointers, ptr ≤ page_size) :
    (get_page_cells page_size cell_pointers).length = cell_pointers.length ∧
    ((get_page_cells page_size cell_pointers).map Cell.offset).Sorted (· ≤ ·) ∧
    (∀ i, i + 1 < cell_pointers.length →
      ((get_page_cells page_size cell_pointers).getD i
          { offset := 0, size := 0 }).size =
        ((get_page_cells page_size cell_pointers).getD (i + 1)
          { offset := 0, size := 0 }).offset -
        ((get_page_cells page_size cell_pointers).getD i
          { offset := 0, size := 0 }).offset) ∧
    (∀ i, i + 1 = cell_pointers.length →
      ((get_page_cells page_size cell_pointers).getD i
          { offset := 0, size := 0 }).size =
        page_size -
        ((get_page_cells page_size cell_pointers).getD i
          { offset := 0, size := 0 }).offset) ∧
    (∀ i, i + 1 = cell_pointers.length →
      ((get_page_cells page_size cell_pointers).getD i
          { offset := 0, size := 0 }).offset +
        ((get_page_cells page_size cell_pointers).getD i
          { offset := 0, size := 0 }).size = page_size) ∧
    (∀ other : List Nat, other.Perm cell_pointers →
      get_page_cells page_size other = get_page_cells page_size cell_pointers) := by
  set s := cell_pointers.insertionSort (· ≤ ·) with hs
  have hslen : s.length = cell_pointers.length := by
    rw [hs]; exact List.length_insertionSort _ _
  have hsorted : s.Sorted (· ≤ ·) := by
    rw [hs]; exact List.sorted_insertionSort _ _
  have hsperm : s.Perm cell_pointers := by
    rw [hs]; exact List.perm_insertionSort _ _
  have hcells : get_page_cells page_size cell_pointers =
      (List.range s.length).map fun i =>
        { offset := s.getD i 0,
          size := if i = s.length - 1 then page_size - s.getD i 0
                  else s.getD (i + 1) 0 - s.getD i 0 } := rfl
  have hsmem : ∀ i, i < s.length → s.getD i 0 ≤ page_size := by
    intro i hi
    have : s.getD i 0 ∈ s := by
      rw [List.getD_eq_getElem?_getD, List.getElem?_eq_getElem hi]
      exact List.getElem_mem hi
    exact hbound _ (hsperm.mem_iff.mp this)
  have hsmono : ∀ i, i + 1 < s.length → s.getD i 0 ≤ s.getD (i + 1) 0 := by
    intro i hi
    have h1 : i < s.length := by omega
    rw [List.getD_eq_getElem?_getD, List.getElem?_eq_getElem h1,
      List.getD_eq_getElem?_getD, List.getElem?_eq_getElem hi]
    have := List.Sorted.rel_get_of_lt hsorted
      (a := ⟨i, h1⟩) (b := ⟨i + 1, hi⟩) (by exact Fin.mk_lt_mk.mpr (by omega))
    simpa [List.get_eq_getElem] using this
  refine ⟨?_, ?_, ?_, ?_, ?_, ?_⟩
  · rw [hcells]; simp [hslen]
  · have : (get_page_cells page_size cell_pointers).map Cell.offset = s := by
      rw [hcells, List.map_map]
      have : (Cell.offset ∘ fun i =>
          ({ offset := s.getD i 0,
             size := if i = s.length - 1 then page_size - s.getD i 0
                     else s.getD (i + 1) 0 - s.getD i 0 } : Cell)) =
          fun i => s.getD i 0 := rfl
      rw [this, range_map_getD_self]
    rw [this]
    exact hsorted
  · intro i hi
    rw [hcells, range_map_getD _ _ _ _ (by omega),
      range_map_getD _ _ _ _ (by omega)]
    have hne : ¬ i = s.length - 1 := by omega
    simp [hne]
  · intro i hi
    rw [hcells, range_map_getD _ _ _ _ (by omega)]
    have heq : i = s.length - 1 := by omega
    simp [heq]
  · intro i hi
    rw [hcells, range_map_getD _ _ _ _ (by omega)]
    have heq : i = s.length - 1 := by omega
    have hle : s.getD i 0 ≤ page_size := hsmem i (by omega)
    simp only [if_pos heq]
    omega
  · intro other hperm
    have : other.insertionSort (· ≤ ·) = s := by
      refine List.eq_of_perm_of_sorted ?_ (List.sorted_insertionSort _ _) hsorted
      exact (List.perm_insertionSort _ _).trans (hperm.trans hsperm.symm)
    simp only [get_page_cells, this]

/-- Witness for C7 on page size 100 with pointers stored in the insertion
order `[30, 80, 50]`: three cells are produced and the length conclusion
holds. -/
theorem c7_get_page_cells_spec_witness :
    (get_page_cells 100 [30, 80, 50]).length = 3 ∧
    get_page_cells 100 [30, 80, 50] =
      [{ offset := 30, size := 20 }, { offset := 50, size := 30 },
       { offset := 80, size := 20 }] :=
  ⟨((c7_get_page_cells_spec 100 [30, 80, 50] (by decide)).1).trans (by decide),
   by decide⟩

end SQrLite
